import Mathlib

/-!
# Verification of hardhat's provider wrappers and RPC output builders

Shallow embedding of:
* `packages/hardhat-core/src/internal/core/providers/accounts.ts`
  (`LocalAccountsProvider`, `SenderProvider`, `AutomaticSenderProvider`,
  `FixedSenderProvider`), and
* `packages/hardhat-core/src/internal/hardhat-network/provider/transactions/...`
  (`FakeSenderTransaction`, `getRpcBlock`, `getRpcTransaction`,
  `getRpcReceipts`, `toRpcReceiptOutput`, `toRpcLogOutput`, `getRpcLogOutput`).

External collaborators (elliptic-curve signing, keccak hashing, RLP
serialization, the io-ts validator, and the hex codec of
`core/jsonrpc/types/base-types.ts`, none of which are part of the sources
under verification) are modelled as abstract function parameters or, where
the repository's spec pins their behavior, as definitions marked
`Modelled from the spec`.
-/

namespace Hardhat

/-! ## Hex rendering (Modelled from the spec)

`numberToRpcQuantity` / `bufferToRpcData` / `bufferToHex` live in
`core/jsonrpc/types/base-types.ts` and `ethereumjs-util`, which are not part
of the sources; the spec pins them: a QUANTITY is a minimal-width lowercase
hex string with `0x` prefix (zero is `0x0`), DATA is an even-length lowercase
hex byte string with `0x` prefix, and `bufferToRpcData` with a pad length
left-pads the byte sequence with zero bytes before encoding. -/

/-- The lowercase hex digit of `n < 16`: `0`-`9` then `a`-`f` (codepoints 48
onward and 97 onward). -/
def hexChar (n : Nat) : Char :=
  if n < 10 then Char.ofNat (48 + n) else Char.ofNat (87 + n)

/-- Minimal hex digits of `n`, most significant first; fuel-based so that the
kernel can evaluate it.  The fuel `n + 1` always suffices since the number of
base-16 digits of `n` is at most `n + 1`. -/
def natToHexAux : Nat → Nat → List Char
  | 0, _ => []
  | fuel + 1, n =>
    if n < 16 then [hexChar n]
    else natToHexAux fuel (n / 16) ++ [hexChar (n % 16)]

/-- Modelled from the spec: RpcQuantity encoding (`numberToRpcQuantity`). -/
def numberToRpcQuantity (n : Nat) : String :=
  "0x" ++ String.mk (natToHexAux (n + 1) n)

/-- Two lowercase hex digits of one byte. -/
def byteToHex (b : Nat) : List Char := [hexChar (b / 16 % 16), hexChar (b % 16)]

/-- Modelled from the spec: `bufferToHex` of `ethereumjs-util` (`0x` plus two
lowercase hex digits per byte). -/
def bufferToHex (buf : List Nat) : String :=
  "0x" ++ String.mk (buf.map byteToHex).flatten

/-- Left-pad a byte sequence with zero bytes to length `len`. -/
def padLeft (buf : List Nat) (len : Nat) : List Nat :=
  List.replicate (len - buf.length) 0 ++ buf

/-- Modelled from the spec: RpcData encoding (`bufferToRpcData`), with the
optional fixed-width left-zero-padding used for block `nonce`/`mixHash`. -/
def bufferToRpcData (buf : List Nat) (padToLength : Option Nat) : String :=
  match padToLength with
  | none => bufferToHex buf
  | some len => bufferToHex (padLeft buf len)

/-! ## LocalAccountsProvider (accounts.ts)

The provider is modelled as a pure function from a (validated) request, the
private-key registry and the chain-id cache to a result, the new cache state
and the ordered list of requests it forwarded to the wrapped provider.
Parameter validation (`validateParams`, io-ts) happens in an external layer;
the request constructors below carry the already-validated parameters, which
is the point at which the code under verification starts branching. -/

/-- The validated `eth_sendTransaction` parameter object
(`RpcTransactionRequest` of `transactionRequest.ts`).  Addresses and byte
blobs are byte lists, quantities are naturals.  `from`/`to`/`data` are named
`from_`/`to_`/`data` because `from` and `to` are Lean keywords. -/
structure RpcTransactionRequest where
  from_ : Option (List Nat) := none
  to_ : Option (List Nat) := none
  gas : Option Nat := none
  gasPrice : Option Nat := none
  value : Option Nat := none
  nonce : Option Nat := none
  data : Option (List Nat) := none
deriving DecidableEq

/-- The structured errors thrown by the code under verification
(`HardhatError` with the various `ERRORS.NETWORK` descriptors, and
`InternalError`). -/
inductive HardhatErr
  | missingTxParam (param : String)
  | notLocalAccount (account : String)
  | ethsignMissingData
  | noRemoteAccount
  | internal (msg : String)
deriving DecidableEq

/-- A request as handled by `LocalAccountsProvider.request`, after parameter
validation.  `other` stands for any method the wrapper does not intercept. -/
inductive LAReq
  | accounts
  | requestAccounts
  | sign (address : Option (List Nat)) (data : Option (List Nat))
  | signTypedData (address : Option (List Nat)) (data : Option Nat)
  | sendTransaction (params : List RpcTransactionRequest)
  | other (method : String)
deriving DecidableEq

/-- A request issued to the wrapped (inner) provider. -/
inductive InnerReq
  | getTransactionCount (address : String) (blockTag : String)
  | chainId
  | sendRawTransaction (data : String)
  | passthrough (req : LAReq)
deriving DecidableEq

/-- The value returned by `LocalAccountsProvider.request` on success.
Results of forwarded calls are opaque tokens produced by the inner
provider. -/
inductive LAResult
  | addresses (addrs : List String)
  | signature (sig : String)
  | forwarded (response : Nat)
deriving DecidableEq

/-- The external collaborators of `LocalAccountsProvider`:
the address derivation `privateToAddress`, the two signing primitives, the
`@ethereumjs/tx` transaction signer/serializer of `_getSignedTransaction`,
and the inner provider itself.  Inner responses that the wrapper decodes as
quantities (`eth_getTransactionCount`, `eth_chainId`) are modelled
post-decoding as naturals; responses merely forwarded to the caller are
opaque tokens. -/
structure LAEnv where
  derive : Nat → List Nat
  personalSign : List Nat → Nat → String
  signTyped : Nat → Nat → String
  signSerialize : RpcTransactionRequest → Nat → Nat → List Nat
  inner : InnerReq → Nat

/-- One `Map.prototype.set` step on an association list: overwrite in place if
the key exists, else append (JS `Map` preserves first-insertion order). -/
def mapSet (m : List (String × Nat)) (k : String) (v : Nat) : List (String × Nat) :=
  if m.any (fun p => p.1 = k) then
    m.map (fun p => if p.1 = k then (k, v) else p)
  else m ++ [(k, v)]

/-- `Map.prototype.get` on the association list. -/
def mapGet (m : List (String × Nat)) (k : String) : Option Nat :=
  (m.find? (fun p => p.1 = k)).map Prod.snd

/-- ASCII lower-casing of one character (JS `String.prototype.toLowerCase`
restricted to ASCII, which covers every character a hex string can hold). -/
def charToLower (c : Char) : Char :=
  if 'A' ≤ c ∧ c ≤ 'Z' then Char.ofNat (c.toNat + 32) else c

/-- ASCII `toLowerCase` on a string. -/
def toLowerCase (s : String) : String := String.mk (s.data.map charToLower)

/-- The lower-cased hex address derived from a private key, exactly as
`_initializePrivateKeys` computes it:
`bufferToHex(privateToAddress(pk)).toLowerCase()`. -/
def addressOf (derive : Nat → List Nat) (pk : Nat) : String :=
  toLowerCase (bufferToHex (derive pk))

/-- `LocalAccountsProvider._initializePrivateKeys`: build the
address-to-private-key map, one `set` per key in order. -/
def _initializePrivateKeys (derive : Nat → List Nat) (keys : List Nat) :
    List (String × Nat) :=
  keys.foldl (fun m pk => mapSet m (addressOf derive pk) pk) []

/-- The chain-id cache of `ProviderWrapperWithChainId`. -/
structure LAState where
  chainIdCache : Option Nat
deriving DecidableEq

/-- Modelled from the spec: `ProviderWrapperWithChainId._getChainId`
(`chainId.ts` is not among the sources).  Per the spec it caches the result
of an `eth_chainId`-equivalent call to the inner provider; subsequent calls
return the cached value without a new round trip. -/
def _getChainId (env : LAEnv) (st : LAState) : Nat × LAState × List InnerReq :=
  match st.chainIdCache with
  | some c => (c, st, [])
  | none =>
    let c := env.inner InnerReq.chainId
    (c, ⟨some c⟩, [InnerReq.chainId])

/-- `LocalAccountsProvider._getPrivateKeyForAddress`: look the address up in
the registry (`bufferToHex(address)`), failing with `NOT_LOCAL_ACCOUNT` when
absent. -/
def _getPrivateKeyForAddress (registry : List (String × Nat)) (address : List Nat) :
    Except HardhatErr Nat :=
  match mapGet registry (bufferToHex address) with
  | none => .error (.notLocalAccount (bufferToHex address))
  | some pk => .ok pk

/-- `LocalAccountsProvider.request`.  Returns the result (or error), the new
chain-id cache state, and the ordered list of requests forwarded to the
wrapped provider. -/
def laRequest (env : LAEnv) (registry : List (String × Nat)) (st : LAState)
    (req : LAReq) : Except HardhatErr LAResult × LAState × List InnerReq :=
  match req with
  | .accounts => (.ok (.addresses (registry.map Prod.fst)), st, [])
  | .requestAccounts => (.ok (.addresses (registry.map Prod.fst)), st, [])
  | .sign address? data? =>
    match address? with
    | none =>
      (.ok (.forwarded (env.inner (.passthrough req))), st, [.passthrough req])
    | some address =>
      match data? with
      | none => (.error .ethsignMissingData, st, [])
      | some d =>
        match _getPrivateKeyForAddress registry address with
        | .error e => (.error e, st, [])
        | .ok pk => (.ok (.signature (env.personalSign d pk)), st, [])
  | .signTypedData address? data? =>
    match address? with
    | none =>
      (.ok (.forwarded (env.inner (.passthrough req))), st, [.passthrough req])
    | some address =>
      match data? with
      | none => (.error .ethsignMissingData, st, [])
      | some d =>
        match _getPrivateKeyForAddress registry address with
        | .error e => (.error e, st, [])
        | .ok pk => (.ok (.signature (env.signTyped d pk)), st, [])
  | .sendTransaction params =>
    match params with
    | [] =>
      (.ok (.forwarded (env.inner (.passthrough req))), st, [.passthrough req])
    | txRequest :: _ =>
      match txRequest.gas, txRequest.from_, txRequest.gasPrice with
      | none, _, _ => (.error (.missingTxParam "gas"), st, [])
      | some _, none, _ => (.error (.missingTxParam "from"), st, [])
      | some _, some _, none => (.error (.missingTxParam "gasPrice"), st, [])
      | some _, some fromAddr, some _ =>
        let nonceStep :
            Nat × List InnerReq :=
          match txRequest.nonce with
          | some n => (n, [])
          | none =>
            let q := InnerReq.getTransactionCount (bufferToHex fromAddr) "pending"
            (env.inner q, [q])
        let txRequest' := { txRequest with nonce := some nonceStep.1 }
        match _getPrivateKeyForAddress registry fromAddr with
        | .error e => (.error e, st, nonceStep.2)
        | .ok pk =>
          let cid := _getChainId env st
          let rawTransaction := env.signSerialize txRequest' cid.1 pk
          let q := InnerReq.sendRawTransaction (bufferToHex rawTransaction)
          (.ok (.forwarded (env.inner q)), cid.2.1, nonceStep.2 ++ cid.2.2 ++ [q])
  | .other m =>
    (.ok (.forwarded (env.inner (.passthrough (.other m)))), st,
      [.passthrough (.other m)])

/-! ### Registry lemmas -/

theorem mapSet_entry_mem {m : List (String × Nat)} {k : String} {v : Nat}
    {p : String × Nat} (hp : p ∈ mapSet m k v) : p ∈ m ∨ p = (k, v) := by
  unfold mapSet at hp
  split at hp
  · rcases List.mem_map.mp hp with ⟨q, hq, hqe⟩
    by_cases h : q.1 = k
    · right; simp [h] at hqe; exact hqe.symm
    · left; simp [h] at hqe; exact hqe ▸ hq
  · rcases List.mem_append.mp hp with h | h
    · exact .inl h
    · right; simpa using h

theorem mapSet_keys (m : List (String × Nat)) (k : String) (v : Nat) :
    (mapSet m k v).map Prod.fst =
      if m.any (fun p => p.1 = k) then m.map Prod.fst
      else m.map Prod.fst ++ [k] := by
  unfold mapSet
  split
  · rw [List.map_map]
    refine List.map_congr_left ?_
    intro p _
    by_cases h : p.1 = k <;> simp [h]
  · simp

theorem mem_keys_mapSet_self (m : List (String × Nat)) (k : String) (v : Nat) :
    k ∈ (mapSet m k v).map Prod.fst := by
  rw [mapSet_keys]
  split
  · next h =>
    rcases List.any_eq_true.mp h with ⟨p, hp, hpk⟩
    exact List.mem_map.mpr ⟨p, hp, by simpa using hpk⟩
  · simp

theorem mem_keys_mapSet_of {m : List (String × Nat)} {k' : String}
    (k : String) (v : Nat) (h : k' ∈ m.map Prod.fst) :
    k' ∈ (mapSet m k v).map Prod.fst := by
  rw [mapSet_keys]
  split
  · exact h
  · exact List.mem_append.mpr (.inl h)

theorem foldl_mapSet_entries (derive : Nat → List Nat) :
    ∀ (keys : List Nat) (m : List (String × Nat)),
      (∀ p ∈ m, p.1 = addressOf derive p.2) →
      ∀ p ∈ keys.foldl (fun acc pk => mapSet acc (addressOf derive pk) pk) m,
        p.1 = addressOf derive p.2 ∧ (p ∈ m ∨ p.2 ∈ keys) := by
  intro keys
  induction keys with
  | nil =>
    intro m hm p hp
    exact ⟨hm p hp, .inl hp⟩
  | cons pk rest ih =>
    intro m hm p hp
    simp only [List.foldl_cons] at hp
    have hinv : ∀ q ∈ mapSet m (addressOf derive pk) pk, q.1 = addressOf derive q.2 := by
      intro q hq
      rcases mapSet_entry_mem hq with h | h
      · exact hm q h
      · rw [h]
    rcases ih (mapSet m (addressOf derive pk) pk) hinv p hp with ⟨hfst, hmem | hrest⟩
    · refine ⟨hfst, ?_⟩
      rcases mapSet_entry_mem hmem with h | h
      · exact .inl h
      · right; rw [h]; exact List.mem_cons_self _ _
    · exact ⟨hfst, .inr (List.mem_cons_of_mem _ hrest)⟩

theorem foldl_mapSet_keys_mono (derive : Nat → List Nat) :
    ∀ (keys : List Nat) (m : List (String × Nat)) (k' : String),
      k' ∈ m.map Prod.fst →
      k' ∈ (keys.foldl (fun acc pk => mapSet acc (addressOf derive pk) pk) m).map Prod.fst := by
  intro keys
  induction keys with
  | nil => intro m k' h; exact h
  | cons pk rest ih =>
    intro m k' h
    simp only [List.foldl_cons]
    exact ih _ _ (mem_keys_mapSet_of _ _ h)

theorem foldl_mapSet_keys_cover (derive : Nat → List Nat) :
    ∀ (keys : List Nat) (m : List (String × Nat)) (pk : Nat), pk ∈ keys →
      addressOf derive pk ∈
        (keys.foldl (fun acc pk => mapSet acc (addressOf derive pk) pk) m).map Prod.fst := by
  intro keys
  induction keys with
  | nil => intro m pk h; cases h
  | cons pk0 rest ih =>
    intro m pk h
    simp only [List.foldl_cons]
    rcases List.mem_cons.mp h with rfl | h
    · exact foldl_mapSet_keys_mono derive rest _ _ (mem_keys_mapSet_self _ _ _)
    · exact ih _ _ h

/-- Structure eta: overwriting `nonce` with its own value is the identity. -/
theorem nonce_overwrite_self (tx : RpcTransactionRequest) (n : Nat)
    (h : tx.nonce = some n) : { tx with nonce := some n } = tx := by
  cases tx
  simp only [RpcTransactionRequest.mk.injEq] at *
  simp_all

/-! ### Claims C1, C6, C7 -/

/-- C1: for every `eth_sendTransaction` request handled by
`LocalAccountsProvider.request` whose validated transaction request lacks
`gas`, `from` or `gasPrice`, the call fails with the missing-transaction-field
error naming a field that is indeed missing (the first missing one in the
order `gas`, `from`, `gasPrice`), the chain-id cache is untouched, and no
request of any kind is forwarded to the inner provider. -/
theorem c1_sendTransaction_missing_field (env : LAEnv)
    (registry : List (String × Nat)) (st : LAState)
    (txRequest : RpcTransactionRequest) (rest : List RpcTransactionRequest)
    (hmiss : txRequest.gas = none ∨ txRequest.from_ = none ∨
      txRequest.gasPrice = none) :
    ∃ f, (txRequest.gas = none ∧ f = "gas" ∨
          txRequest.gas ≠ none ∧ txRequest.from_ = none ∧ f = "from" ∨
          txRequest.gas ≠ none ∧ txRequest.from_ ≠ none ∧
            txRequest.gasPrice = none ∧ f = "gasPrice")
      ∧ laRequest env registry st (.sendTransaction (txRequest :: rest)) =
          (.error (.missingTxParam f), st, []) := by
  rcases hg : txRequest.gas with _ | g
  · exact ⟨"gas", .inl ⟨rfl, rfl⟩, by simp [laRequest, hg]⟩
  · rcases hf : txRequest.from_ with _ | fromAddr
    · exact ⟨"from", .inr (.inl ⟨by simp [hg], rfl, rfl⟩), by simp [laRequest, hg, hf]⟩
    · rcases hp : txRequest.gasPrice with _ | p
      · exact ⟨"gasPrice", .inr (.inr ⟨by simp [hg], by simp [hf], rfl, rfl⟩),
          by simp [laRequest, hg, hf, hp]⟩
      · simp [hg, hf, hp] at hmiss

/-- A concrete environment used by the witnesses below. -/
def envW : LAEnv where
  derive := fun pk => [pk % 256]
  personalSign := fun _ _ => "sig"
  signTyped := fun _ _ => "sig"
  signSerialize := fun txRequest chainId pk => [txRequest.nonce.getD 0, chainId, pk]
  inner := fun q =>
    match q with
    | .getTransactionCount _ _ => 7
    | .chainId => 1
    | _ => 0

/-- C1 witness: a concrete request with `gas` missing fails with the error
naming `gas`, the cache is untouched, and nothing is forwarded. -/
theorem c1_sendTransaction_missing_field_witness :
    laRequest envW [] ⟨none⟩
        (.sendTransaction [{ from_ := some [1], gasPrice := some 1 }]) =
      (.error (.missingTxParam "gas"), (⟨none⟩ : LAState), []) := by
  obtain ⟨f, hf, he⟩ :=
    c1_sendTransaction_missing_field envW [] ⟨none⟩
      { from_ := some [1], gasPrice := some 1 } [] (.inl rfl)
  rcases hf with ⟨-, rfl⟩ | ⟨hg, -⟩ | ⟨hg, -⟩
  · exact he
  · exact absurd rfl hg
  · exact absurd rfl hg

/-- C6: `eth_accounts` and `eth_requestAccounts` return exactly the keys of
the private-key registry — each one the lower-cased hex address derived from
one of the registered private keys, and conversely each registered key's
derived address is listed — without forwarding anything to the inner
provider and without touching the chain-id cache. -/
theorem c6_eth_accounts_registry (env : LAEnv) (keys : List Nat) (st : LAState) :
    (laRequest env (_initializePrivateKeys env.derive keys) st .accounts =
        (.ok (.addresses ((_initializePrivateKeys env.derive keys).map Prod.fst)),
          st, []))
    ∧ (laRequest env (_initializePrivateKeys env.derive keys) st .requestAccounts =
        (.ok (.addresses ((_initializePrivateKeys env.derive keys).map Prod.fst)),
          st, []))
    ∧ (∀ a ∈ (_initializePrivateKeys env.derive keys).map Prod.fst,
        ∃ pk ∈ keys, a = addressOf env.derive pk)
    ∧ (∀ pk ∈ keys,
        addressOf env.derive pk ∈
          (_initializePrivateKeys env.derive keys).map Prod.fst) := by
  refine ⟨rfl, rfl, ?_, ?_⟩
  · intro a ha
    rcases List.mem_map.mp ha with ⟨p, hp, rfl⟩
    have h := foldl_mapSet_entries env.derive keys [] (by simp) p hp
    rcases h with ⟨hfst, hmem | hkeys⟩
    · cases hmem
    · exact ⟨p.2, hkeys, hfst⟩
  · intro pk hpk
    exact foldl_mapSet_keys_cover env.derive keys [] pk hpk

/-- C6 witness: with private keys `5` and `9` (addresses `0x05`, `0x09` under
the witness derivation), `eth_accounts` returns exactly those two addresses
with no forwarded request, and key 5's derived address is listed. -/
theorem c6_eth_accounts_registry_witness :
    laRequest envW (_initializePrivateKeys envW.derive [5, 9]) ⟨none⟩ .accounts =
      (.ok (.addresses ["0x05", "0x09"]), (⟨none⟩ : LAState), [])
    ∧ addressOf envW.derive 5 ∈
        (_initializePrivateKeys envW.derive [5, 9]).map Prod.fst := by
  constructor
  · exact (c6_eth_accounts_registry envW [5, 9] ⟨none⟩).1.trans (by rfl)
  · exact (c6_eth_accounts_registry envW [5, 9] ⟨none⟩).2.2.2 5 (by simp)

/-- Counts the `eth_getTransactionCount` requests in a forwarded-request
trace. -/
def isGetTransactionCount : InnerReq → Bool
  | .getTransactionCount _ _ => true
  | _ => false

/-- C7: for an `eth_sendTransaction` request with `gas`, `from`, `gasPrice`
present: if `nonce` is absent the wrapper issues exactly one
`eth_getTransactionCount` query, for the sender address against the
`"pending"` block tag, and it is the first request forwarded; if `nonce` is
present, no `eth_getTransactionCount` query is ever issued and (when the
sender is locally held) the supplied transaction request — with its supplied
nonce — is what gets signed and forwarded as `eth_sendRawTransaction`. -/
theorem c7_nonce_autofill (env : LAEnv) (registry : List (String × Nat))
    (st : LAState) (txRequest : RpcTransactionRequest)
    (rest : List RpcTransactionRequest) (g p : Nat) (fromAddr : List Nat)
    (hg : txRequest.gas = some g) (hf : txRequest.from_ = some fromAddr)
    (hp : txRequest.gasPrice = some p) :
    (txRequest.nonce = none →
      ((laRequest env registry st (.sendTransaction (txRequest :: rest))).2.2.countP
          (fun q => isGetTransactionCount q) = 1
        ∧ (laRequest env registry st (.sendTransaction (txRequest :: rest))).2.2.head? =
            some (.getTransactionCount (bufferToHex fromAddr) "pending")))
    ∧ (∀ n, txRequest.nonce = some n →
        ((laRequest env registry st (.sendTransaction (txRequest :: rest))).2.2.countP
            (fun q => isGetTransactionCount q) = 0
          ∧ ∀ pk, mapGet registry (bufferToHex fromAddr) = some pk →
              (laRequest env registry st (.sendTransaction (txRequest :: rest))).2.2.getLast? =
                some (.sendRawTransaction
                  (bufferToHex (env.signSerialize txRequest (_getChainId env st).1 pk))))) := by
  obtain ⟨f0, t0, g0, gp0, v0, n0, d0⟩ := txRequest
  simp only at hg hf hp
  subst hg hf hp
  constructor
  · intro hn
    simp only at hn
    subst hn
    cases hpk : mapGet registry (bufferToHex fromAddr) with
    | none =>
      constructor <;>
        simp [laRequest, _getPrivateKeyForAddress, hpk, isGetTransactionCount]
    | some pk =>
      cases hcid : st.chainIdCache with
      | none =>
        constructor <;>
          simp [laRequest, _getPrivateKeyForAddress, hpk, _getChainId, hcid,
            isGetTransactionCount]
      | some c =>
        constructor <;>
          simp [laRequest, _getPrivateKeyForAddress, hpk, _getChainId, hcid,
            isGetTransactionCount]
  · intro n hn
    simp only at hn
    subst hn
    cases hpk : mapGet registry (bufferToHex fromAddr) with
    | none =>
      refine ⟨?_, ?_⟩
      · simp [laRequest, _getPrivateKeyForAddress, hpk, isGetTransactionCount]
      · intro pk hpk'
        simp at hpk'
    | some pk =>
      cases hcid : st.chainIdCache with
      | none =>
        refine ⟨?_, ?_⟩
        · simp [laRequest, _getPrivateKeyForAddress, hpk, _getChainId, hcid,
            isGetTransactionCount]
        · intro pk' hpk'
          injection hpk' with h
          subst h
          simp [laRequest, _getPrivateKeyForAddress, hpk, _getChainId, hcid]
      | some c =>
        refine ⟨?_, ?_⟩
        · simp [laRequest, _getPrivateKeyForAddress, hpk, _getChainId, hcid,
            isGetTransactionCount]
        · intro pk' hpk'
          injection hpk' with h
          subst h
          simp [laRequest, _getPrivateKeyForAddress, hpk, _getChainId, hcid]

/-- A concrete transaction request without a nonce, sender `0x02`. -/
def txW1 : RpcTransactionRequest :=
  { from_ := some [2], gas := some 21000, gasPrice := some 1 }

/-- The same concrete transaction request, with a nonce supplied. -/
def txW2 : RpcTransactionRequest :=
  { from_ := some [2], gas := some 21000, gasPrice := some 1, nonce := some 3 }

/-- C7 witness: with a registered sender `0x02`, a request without a nonce
issues exactly one `eth_getTransactionCount` query, and a request with a
nonce issues none. -/
theorem c7_nonce_autofill_witness :
    ((laRequest envW [("0x02", 11)] ⟨none⟩ (.sendTransaction [txW1])).2.2.countP
      (fun q => isGetTransactionCount q) = 1)
    ∧ ((laRequest envW [("0x02", 11)] ⟨some 1⟩ (.sendTransaction [txW2])).2.2.countP
      (fun q => isGetTransactionCount q) = 0) := by
  constructor
  · exact ((c7_nonce_autofill envW [("0x02", 11)] ⟨none⟩ txW1 []
      21000 1 [2] rfl rfl rfl).1 rfl).1
  · exact ((c7_nonce_autofill envW [("0x02", 11)] ⟨some 1⟩ txW2 []
      21000 1 [2] rfl rfl rfl).2 3 rfl).1

/-! ## SenderProvider / AutomaticSenderProvider / FixedSenderProvider
(accounts.ts)

`SenderProvider.request` reads `params[0]` without validation and, when it
injects a sender, assigns `tx.from = senderAccount` on the caller-supplied
object before forwarding the *same* `args` object to the inner provider.
The model makes that aliasing observable: `callerParamsAfter` is the content
of the caller's params array after the call, and on the forwarding path the
`result` carries exactly the params the inner provider sees. -/

/-- The unvalidated `JsonRpcTransactionData` object read from `params[0]`. -/
structure JsonRpcTransactionData where
  from_ : Option String := none
  to_ : Option String := none
  gas : Option String := none
  gasPrice : Option String := none
  value : Option String := none
  data : Option String := none
  nonce : Option String := none
deriving DecidableEq

/-- The request arguments seen by `SenderProvider.request`.  Only the leading
transaction-shaped parameter is ever inspected; trailing parameters ride
along unchanged. -/
structure SPArgs where
  method : String
  params : List JsonRpcTransactionData
deriving DecidableEq

/-- The `_firstAccount` cache of `AutomaticSenderProvider`. -/
structure SenderState where
  firstAccount : Option String
deriving DecidableEq

/-- Which concrete `SenderProvider` subclass is running. -/
inductive SenderVariant
  | automatic
  | fixed (sender : String)
deriving DecidableEq

/-- `_getSender` of the two variants.  `accountsResp` is the inner provider's
reply to the `eth_accounts` query, should one be issued; the returned `Nat`
counts the `eth_accounts` queries issued (0 or 1).
`AutomaticSenderProvider` stores `accounts[0]` — which is *undefined* when
the reply is empty — and returns the stored value. -/
def _getSender (v : SenderVariant) (st : SenderState) (accountsResp : List String) :
    Option String × SenderState × Nat :=
  match v with
  | .fixed s => (some s, st, 0)
  | .automatic =>
    match st.firstAccount with
    | some a => (some a, st, 0)
    | none => (accountsResp.head?, ⟨accountsResp.head?⟩, 1)

/-- Everything observable about one `SenderProvider.request` call. -/
structure SPOutcome where
  result : Except HardhatErr SPArgs
  callerParamsAfter : List JsonRpcTransactionData
  state : SenderState
  ethAccountsQueries : Nat

/-- `SenderProvider.request`.  On success `result` is `.ok` of the args
object handed to the inner provider (in the source this is the caller's own
`args`, whose `params[0]` may just have been mutated — hence
`callerParamsAfter` always coincides with the forwarded params). -/
def senderRequest (v : SenderVariant) (accountsResp : List String)
    (st : SenderState) (args : SPArgs) : SPOutcome :=
  if args.method = "eth_sendTransaction" ∨ args.method = "eth_call" ∨
      args.method = "eth_estimateGas" then
    match args.params with
    | [] => ⟨.ok args, args.params, st, 0⟩
    | tx :: rest =>
      match tx.from_ with
      | some _ => ⟨.ok args, args.params, st, 0⟩
      | none =>
        let s := _getSender v st accountsResp
        match s.1 with
        | some senderAccount =>
          ⟨.ok ⟨args.method, { tx with from_ := some senderAccount } :: rest⟩,
            { tx with from_ := some senderAccount } :: rest, s.2.1, s.2.2⟩
        | none =>
          if args.method = "eth_sendTransaction" then
            ⟨.error .noRemoteAccount, args.params, s.2.1, s.2.2⟩
          else
            ⟨.ok args, args.params, s.2.1, s.2.2⟩
  else ⟨.ok args, args.params, st, 0⟩

/-- A whole sequence of requests against one wrapper instance; `resp k` is
the inner provider's reply to the `k`-th `eth_accounts` query (counted from
the start of the run).  Returns the final cache state and the total number
of `eth_accounts` queries issued. -/
def senderRun (v : SenderVariant) (resp : Nat → List String) :
    SenderState → Nat → List SPArgs → SenderState × Nat
  | st, q, [] => (st, q)
  | st, q, args :: rest =>
    senderRun v resp (senderRequest v (resp q) st args).state
      (q + (senderRequest v (resp q) st args).ethAccountsQueries) rest

/-! ### Claims C3, C8, C9 -/

/-- C8: for `eth_sendTransaction`/`eth_call`/`eth_estimateGas` with a leading
transaction object lacking `from`: a resolved sender is injected as `from`;
with no resolvable sender, `eth_sendTransaction` fails with the
no-sender-available error while `eth_call`/`eth_estimateGas` forward the
request as-is, still without a `from` field. -/
theorem c8_sender_default (v : SenderVariant) (accountsResp : List String)
    (st : SenderState) (method : String) (tx : JsonRpcTransactionData)
    (rest : List JsonRpcTransactionData)
    (hm : method = "eth_sendTransaction" ∨ method = "eth_call" ∨
      method = "eth_estimateGas")
    (hfrom : tx.from_ = none) :
    (∀ a, (_getSender v st accountsResp).1 = some a →
        (senderRequest v accountsResp st ⟨method, tx :: rest⟩).result =
          .ok ⟨method, { tx with from_ := some a } :: rest⟩)
    ∧ ((_getSender v st accountsResp).1 = none →
        method = "eth_sendTransaction" →
        (senderRequest v accountsResp st ⟨method, tx :: rest⟩).result =
          .error .noRemoteAccount)
    ∧ ((_getSender v st accountsResp).1 = none →
        method ≠ "eth_sendTransaction" →
        (senderRequest v accountsResp st ⟨method, tx :: rest⟩).result =
          .ok ⟨method, tx :: rest⟩) := by
  refine ⟨?_, ?_, ?_⟩
  · intro a ha
    rcases hm with rfl | rfl | rfl <;> simp [senderRequest, hfrom, ha]
  · intro hnone hsend
    subst hsend
    simp [senderRequest, hfrom, hnone]
  · intro hnone hne
    rcases hm with rfl | rfl | rfl
    · exact absurd rfl hne
    · simp [senderRequest, hfrom, hnone]
    · simp [senderRequest, hfrom, hnone]

/-- C8 witness: concrete cases of the three behaviors. -/
theorem c8_sender_default_witness :
    (senderRequest (.fixed "0xaa") [] ⟨none⟩ ⟨"eth_call", [{}]⟩).result =
      .ok ⟨"eth_call", [{ from_ := some "0xaa" }]⟩
    ∧ (senderRequest .automatic [] ⟨none⟩ ⟨"eth_sendTransaction", [{}]⟩).result =
      .error .noRemoteAccount
    ∧ (senderRequest .automatic [] ⟨none⟩ ⟨"eth_estimateGas", [{}]⟩).result =
      .ok ⟨"eth_estimateGas", [{}]⟩ := by
  refine ⟨?_, ?_, ?_⟩
  · exact (c8_sender_default (.fixed "0xaa") [] ⟨none⟩ "eth_call" {} []
      (.inr (.inl rfl)) rfl).1 "0xaa" rfl
  · exact (c8_sender_default .automatic [] ⟨none⟩ "eth_sendTransaction" {} []
      (.inl rfl) rfl).2.1 rfl rfl
  · exact (c8_sender_default .automatic [] ⟨none⟩ "eth_estimateGas" {} []
      (.inr (.inr rfl)) rfl).2.2 rfl (by decide)

/-- C3 counterexample: a fixed-sender wrapper handling `eth_call` with a
leading transaction object lacking `from` leaves the caller's params array
changed after the call — `tx.from = senderAccount` mutated the
caller-supplied object in place, contradicting the claim that wrappers never
mutate the caller-supplied request. -/
theorem c3_counterexample :
    (senderRequest (.fixed "0xaa") [] ⟨none⟩ ⟨"eth_call", [{}]⟩).callerParamsAfter ≠
      [({} : JsonRpcTransactionData)] := by decide

/-- C3 amended: the sender-default wrappers (both variants) inject the
resolved sender by mutating the caller-supplied transaction object in place
— the params the caller sees afterwards are exactly the params forwarded to
the inner provider, and differ from the caller's original params — whereas
the local-accounts wrapper forwards non-intercepted requests verbatim and
never alters the caller's request. -/
theorem c3_mutation (v : SenderVariant) (accountsResp : List String)
    (st : SenderState) (method : String) (tx : JsonRpcTransactionData)
    (rest : List JsonRpcTransactionData) (a : String)
    (hm : method = "eth_sendTransaction" ∨ method = "eth_call" ∨
      method = "eth_estimateGas")
    (hfrom : tx.from_ = none)
    (ha : (_getSender v st accountsResp).1 = some a) :
    ((senderRequest v accountsResp st ⟨method, tx :: rest⟩).callerParamsAfter =
        { tx with from_ := some a } :: rest
      ∧ (senderRequest v accountsResp st ⟨method, tx :: rest⟩).result =
          .ok ⟨method,
            (senderRequest v accountsResp st ⟨method, tx :: rest⟩).callerParamsAfter⟩
      ∧ (senderRequest v accountsResp st ⟨method, tx :: rest⟩).callerParamsAfter ≠
          tx :: rest)
    ∧ (∀ (env : LAEnv) (registry : List (String × Nat)) (lst : LAState) (m : String),
        laRequest env registry lst (.other m) =
          (.ok (.forwarded (env.inner (.passthrough (.other m)))), lst,
            [.passthrough (.other m)])) := by
  refine ⟨⟨?_, ?_, ?_⟩, fun env registry lst m => rfl⟩
  · rcases hm with rfl | rfl | rfl <;> simp [senderRequest, hfrom, ha]
  · rcases hm with rfl | rfl | rfl <;> simp [senderRequest, hfrom, ha]
  · rcases hm with rfl | rfl | rfl <;>
    · simp only [senderRequest, hfrom, ha]
      intro h
      have h0 := List.head_eq_of_cons_eq h
      have : some a = tx.from_ := congrArg JsonRpcTransactionData.from_ h0
      rw [hfrom] at this
      cases this

/-- C3 amended witness: the concrete mutated params coincide with the
forwarded params and differ from the original. -/
theorem c3_mutation_witness :
    (senderRequest (.fixed "0xaa") [] ⟨none⟩ ⟨"eth_call", [{}]⟩).callerParamsAfter =
      [{ from_ := some "0xaa" }]
    ∧ (senderRequest (.fixed "0xaa") [] ⟨none⟩ ⟨"eth_call", [{}]⟩).result =
      .ok ⟨"eth_call",
        (senderRequest (.fixed "0xaa") [] ⟨none⟩ ⟨"eth_call", [{}]⟩).callerParamsAfter⟩ := by
  have h := c3_mutation (.fixed "0xaa") [] ⟨none⟩ "eth_call" {} [] "0xaa"
    (.inr (.inl rfl)) rfl rfl
  exact ⟨h.1.1, h.1.2.1⟩

/-- C9 counterexample: when the inner provider's `eth_accounts` always
returns an empty list, every request that needs a sender issues a fresh
`eth_accounts` query — two requests, two queries — contradicting "at most
one `eth_accounts` query over the wrapper's whole lifetime". -/
theorem c9_counterexample :
    (senderRun .automatic (fun _ => []) ⟨none⟩ 0
      [⟨"eth_call", [{}]⟩, ⟨"eth_call", [{}]⟩]).2 = 2 := by decide

/-- One cached step: with `_firstAccount` set, a request never queries
`eth_accounts` and leaves the cache unchanged. -/
theorem senderRequest_cached (r : List String) (a : String) (args : SPArgs) :
    (senderRequest .automatic r ⟨some a⟩ args).state = ⟨some a⟩
    ∧ (senderRequest .automatic r ⟨some a⟩ args).ethAccountsQueries = 0 := by
  obtain ⟨m, params⟩ := args
  by_cases hc : m = "eth_sendTransaction" ∨ m = "eth_call" ∨ m = "eth_estimateGas"
  · cases params with
    | nil => simp [senderRequest, hc]
    | cons tx rest =>
      cases hf : tx.from_ with
      | some s => simp [senderRequest, hc, hf]
      | none => simp [senderRequest, hc, hf, _getSender]
  · simp [senderRequest, hc]

/-- C9 amended: once a first account is cached, a whole request sequence of
any length issues zero further `eth_accounts` queries and leaves the cache
unchanged; each single request issues at most one `eth_accounts` query; and
a request whose `eth_accounts` query got a nonempty reply leaves the cache
set.  (When the reply is empty the cache stays unset, so — as the
counterexample shows — later requests may query again.) -/
theorem c9_first_account_cache :
    (∀ (resp : Nat → List String) (a : String) (q : Nat) (reqs : List SPArgs),
        senderRun .automatic resp ⟨some a⟩ q reqs = (⟨some a⟩, q))
    ∧ (∀ (v : SenderVariant) (r : List String) (st : SenderState) (args : SPArgs),
        (senderRequest v r st args).ethAccountsQueries ≤ 1)
    ∧ (∀ (r : List String) (st : SenderState) (args : SPArgs), r ≠ [] →
        (senderRequest .automatic r st args).ethAccountsQueries = 1 →
        (senderRequest .automatic r st args).state.firstAccount ≠ none) := by
  refine ⟨?_, ?_, ?_⟩
  · intro resp a q reqs
    induction reqs generalizing q with
    | nil => rfl
    | cons args rest ih =>
      show senderRun .automatic resp (senderRequest _ _ _ args).state
        (q + (senderRequest _ _ _ args).ethAccountsQueries) rest = _
      rw [(senderRequest_cached (resp q) a args).1,
        (senderRequest_cached (resp q) a args).2]
      exact ih q
  · intro v r st args
    obtain ⟨m, params⟩ := args
    by_cases hc : m = "eth_sendTransaction" ∨ m = "eth_call" ∨ m = "eth_estimateGas"
    · cases params with
      | nil => simp [senderRequest, hc]
      | cons tx rest =>
        cases hf : tx.from_ with
        | some s => simp [senderRequest, hc, hf]
        | none =>
          cases v with
          | fixed s => simp [senderRequest, hc, hf, _getSender]
          | automatic =>
            cases hst : st.firstAccount with
            | some a => simp [senderRequest, hc, hf, _getSender, hst]
            | none =>
              cases hr : r.head? with
              | some a => simp [senderRequest, hc, hf, _getSender, hst, hr]
              | none =>
                rcases hc with rfl | rfl | rfl <;>
                  simp [senderRequest, hf, _getSender, hst, hr]
    · simp [senderRequest, hc]
  · intro r st args hr hq
    obtain ⟨m, params⟩ := args
    by_cases hc : m = "eth_sendTransaction" ∨ m = "eth_call" ∨ m = "eth_estimateGas"
    · cases params with
      | nil => simp [senderRequest, hc] at hq
      | cons tx rest =>
        cases hf : tx.from_ with
        | some s => simp [senderRequest, hc, hf] at hq
        | none =>
          cases hst : st.firstAccount with
          | some a => simp [senderRequest, hc, hf, _getSender, hst] at hq
          | none =>
            cases r with
            | nil => exact absurd rfl hr
            | cons a0 rtl =>
              simp [senderRequest, hc, hf, _getSender, hst]
    · simp [senderRequest, hc] at hq

/-- C9 amended witness: a cached wrapper serves a request with zero queries,
and a successful first query sets the cache. -/
theorem c9_first_account_cache_witness :
    senderRun .automatic (fun _ => ["0xcc"]) ⟨some "0xbb"⟩ 0
      [⟨"eth_call", [{}]⟩] = (⟨some "0xbb"⟩, 0)
    ∧ (senderRequest .automatic ["0xcc"] ⟨none⟩
        ⟨"eth_call", [{}]⟩).state.firstAccount ≠ none := by
  exact ⟨c9_first_account_cache.1 _ "0xbb" 0 _,
    c9_first_account_cache.2.2 ["0xcc"] ⟨none⟩ ⟨"eth_call", [{}]⟩
      (by decide) (by decide)⟩

/-! ## RPC output builders
(`getRpcBlock` / `getRpcTransaction` / `getRpcReceipts` and the log builder,
bundled after `FakeSenderTransaction.ts` in the sources)

Buffers (`tx.hash()`, header hashes, addresses) are byte lists; quantities
are naturals.  `tx.hash()` and `tx.getSenderAddress()` are computed by the
external `@ethereumjs` library and therefore appear as stored fields of the
transaction model. -/

/-- A `TypedTransaction` as consumed by the output builders: the signature
fields `v`/`r`/`s` are optional, mirroring the library's unsigned
transactions. -/
structure Tx where
  hash : List Nat
  senderAddress : List Nat
  gasLimit : Nat
  gasPrice : Nat
  nonce : Nat
  value : Nat
  data : List Nat
  to_ : Option (List Nat)
  v : Option Nat
  r : Option Nat
  s : Option Nat
deriving DecidableEq

structure BlockHeader where
  number : Nat
  parentHash : List Nat
  nonce : List Nat
  mixHash : List Nat
  uncleHash : List Nat
  bloom : List Nat
  transactionsTrie : List Nat
  stateRoot : List Nat
  receiptTrie : List Nat
  coinbase : List Nat
  difficulty : Nat
  extraData : List Nat
  gasLimit : Nat
  gasUsed : Nat
  timestamp : Nat
deriving DecidableEq

/-- A block; `hash` models `block.hash()`, `uncleHashes` the `uh.hash()` of
each uncle header, `serializedLength` models `block.serialize().length`. -/
structure Block where
  header : BlockHeader
  transactions : List Tx
  uncleHashes : List (List Nat)
  hash : List Nat
  serializedLength : Nat
deriving DecidableEq

structure RpcTransactionOutput where
  blockHash : Option String
  blockNumber : Option String
  from_ : String
  gas : String
  gasPrice : String
  hash : String
  input : String
  nonce : String
  r : String
  s : String
  to_ : Option String
  transactionIndex : Option String
  v : String
  value : String
deriving DecidableEq

/-- `getRpcTransaction`.  The `"pending"` overload is `block = none` (with no
index); failure of `assertHardhatInvariant` on an unsigned transaction is the
`.error` case.  Note that `transactionIndex` depends only on `index` and the
block-position fields only on `block`, exactly as in the source. -/
def getRpcTransaction (tx : Tx) (block : Option Block) (index : Option Nat) :
    Except String RpcTransactionOutput :=
  match tx.v, tx.r, tx.s with
  | some v, some r, some s =>
    .ok {
      blockHash := block.map (fun b => bufferToRpcData b.hash none)
      blockNumber := block.map (fun b => numberToRpcQuantity b.header.number)
      from_ := bufferToRpcData tx.senderAddress none
      gas := numberToRpcQuantity tx.gasLimit
      gasPrice := numberToRpcQuantity tx.gasPrice
      hash := bufferToRpcData tx.hash none
      input := bufferToRpcData tx.data none
      nonce := numberToRpcQuantity tx.nonce
      to_ := tx.to_.map (fun t => bufferToRpcData t none)
      transactionIndex := index.map numberToRpcQuantity
      value := numberToRpcQuantity tx.value
      v := numberToRpcQuantity v
      r := numberToRpcQuantity r
      s := numberToRpcQuantity s }
  | _, _, _ => .error "tx should be signed"

/-- The `transactions` field of a block output: hashes or full objects. -/
inductive BlockTxsOutput
  | hashes (hs : List String)
  | full (txs : List RpcTransactionOutput)
deriving DecidableEq, Inhabited

structure RpcBlockOutput where
  difficulty : String
  extraData : String
  gasLimit : String
  gasUsed : String
  hash : Option String
  logsBloom : Option String
  miner : String
  mixHash : Option String
  nonce : Option String
  number : Option String
  parentHash : String
  receiptsRoot : String
  sha3Uncles : String
  size : String
  stateRoot : String
  timestamp : String
  totalDifficulty : String
  transactions : BlockTxsOutput
  transactionsRoot : String
  uncles : List String
deriving DecidableEq, Inhabited

/-- The `block.transactions.map((tx, index) => getRpcTransaction(tx, block,
index))` part of `getRpcBlock`, with the first assertion failure
propagated. -/
def buildFullTxs (block : Block) :
    List Tx → Nat → Except String (List RpcTransactionOutput)
  | [], _ => .ok []
  | tx :: rest, index =>
    match getRpcTransaction tx (some block) (some index),
        buildFullTxs block rest (index + 1) with
    | .ok o, .ok os => .ok (o :: os)
    | .error e, _ => .error e
    | .ok _, .error e => .error e

/-- `getRpcBlock`.  Note that the transaction outputs are built against the
block itself with their index, irrespective of `pending`. -/
def getRpcBlock (block : Block) (totalDifficulty : Nat)
    (includeTransactions : Bool) (pending : Bool) :
    Except String RpcBlockOutput :=
  match (if includeTransactions
      then (buildFullTxs block block.transactions 0).map BlockTxsOutput.full
      else .ok (BlockTxsOutput.hashes
        (block.transactions.map (fun tx => bufferToRpcData tx.hash none)))) with
  | .error e => .error e
  | .ok transactions =>
    .ok {
      number := if pending then none
        else some (numberToRpcQuantity block.header.number)
      hash := if pending then none else some (bufferToRpcData block.hash none)
      parentHash := bufferToRpcData block.header.parentHash none
      nonce := if pending then none
        else some (bufferToRpcData block.header.nonce (some 8))
      mixHash := if pending then none
        else some (bufferToRpcData block.header.mixHash (some 32))
      sha3Uncles := bufferToRpcData block.header.uncleHash none
      logsBloom := if pending then none
        else some (bufferToRpcData block.header.bloom none)
      transactionsRoot := bufferToRpcData block.header.transactionsTrie none
      stateRoot := bufferToRpcData block.header.stateRoot none
      receiptsRoot := bufferToRpcData block.header.receiptTrie none
      miner := bufferToRpcData block.header.coinbase none
      difficulty := numberToRpcQuantity block.header.difficulty
      totalDifficulty := numberToRpcQuantity totalDifficulty
      extraData := bufferToRpcData block.header.extraData none
      size := numberToRpcQuantity block.serializedLength
      gasLimit := numberToRpcQuantity block.header.gasLimit
      gasUsed := numberToRpcQuantity block.header.gasUsed
      timestamp := numberToRpcQuantity block.header.timestamp
      transactions := transactions
      uncles := block.uncleHashes.map (fun h => bufferToRpcData h none) }

/-- A raw EVM log entry `[address, topics, data]`. -/
structure LogEntry where
  address : List Nat
  topics : List (List Nat)
  data : List Nat
deriving DecidableEq

structure RpcLogOutput where
  address : String
  blockHash : Option String
  blockNumber : Option String
  data : String
  logIndex : Option String
  removed : Bool
  topics : List String
  transactionHash : Option String
  transactionIndex : Option String
deriving DecidableEq

/-- The private `getRpcLogOutput` helper. -/
def getRpcLogOutput (log : LogEntry) (tx : Tx) (block : Option Block)
    (transactionIndex : Option Nat) (logIndex : Option Nat) : RpcLogOutput :=
  { removed := false
    logIndex := logIndex.map numberToRpcQuantity
    transactionIndex := transactionIndex.map numberToRpcQuantity
    transactionHash := block.map (fun _ => bufferToRpcData tx.hash none)
    blockHash := block.map (fun b => bufferToRpcData b.hash none)
    blockNumber := block.map (fun b => numberToRpcQuantity b.header.number)
    address := bufferToRpcData log.address none
    data := bufferToRpcData log.data none
    topics := log.topics.map (fun t => bufferToRpcData t none) }

/-- A post-Byzantium transaction receipt as found in `runBlockResult.receipts`. -/
structure TxReceipt where
  gasUsed : Nat
  bitvector : List Nat
  logs : List LogEntry
  status : Nat
deriving DecidableEq

/-- One entry of `runBlockResult.results`. -/
structure TxRunResult where
  gasUsed : Nat
  createdAddress : Option (List Nat)
deriving DecidableEq

structure RunBlockResult where
  results : List TxRunResult
  receipts : List TxReceipt
deriving DecidableEq

structure RpcReceiptOutput where
  blockHash : String
  blockNumber : String
  contractAddress : Option String
  cumulativeGasUsed : String
  from_ : String
  gasUsed : String
  logs : List RpcLogOutput
  logsBloom : String
  status : String
  to_ : Option String
  transactionHash : String
  transactionIndex : String
deriving DecidableEq

/-- The receipt output pushed for transaction `i`, after the running total
has been bumped to `cumulativeGasUsed`. -/
def mkReceiptOutput (block : Block) (tx : Tx) (result : TxRunResult)
    (receipt : TxReceipt) (cumulativeGasUsed : Nat) (i : Nat) :
    RpcReceiptOutput :=
  { transactionHash := bufferToRpcData tx.hash none
    transactionIndex := numberToRpcQuantity i
    blockHash := bufferToRpcData block.hash none
    blockNumber := numberToRpcQuantity block.header.number
    from_ := bufferToRpcData tx.senderAddress none
    to_ := tx.to_.map (fun t => bufferToRpcData t none)
    cumulativeGasUsed := numberToRpcQuantity cumulativeGasUsed
    gasUsed := numberToRpcQuantity result.gasUsed
    contractAddress := result.createdAddress.map (fun a => bufferToRpcData a none)
    logs := receipt.logs.enum.map (fun q =>
      getRpcLogOutput q.2 tx (some block) (some i) (some q.1))
    logsBloom := bufferToRpcData receipt.bitvector none
    status := numberToRpcQuantity receipt.status }

/-- The loop of `getRpcReceipts`: walk the (transaction, result, receipt)
triples in order, threading the running `cumulativeGasUsed` and the index. -/
def getRpcReceiptsAux (block : Block) :
    Nat → Nat → List (Tx × TxRunResult × TxReceipt) → List RpcReceiptOutput
  | _, _, [] => []
  | cumulativeGasUsed, i, (tx, result, receipt) :: rest =>
    mkReceiptOutput block tx result receipt (cumulativeGasUsed + receipt.gasUsed) i ::
      getRpcReceiptsAux block (cumulativeGasUsed + receipt.gasUsed) (i + 1) rest

/-- `getRpcReceipts`.  The source loop runs over `runBlockResult.results`
indexing the other two lists at the same position; the zip realizes exactly
that when the three lists have equal lengths (the only case in which the
source loop is defined — out-of-range indexing would crash it). -/
def getRpcReceipts (block : Block) (runBlockResult : RunBlockResult) :
    List RpcReceiptOutput :=
  getRpcReceiptsAux block 0 0
    (block.transactions.zip (runBlockResult.results.zip runBlockResult.receipts))

/-- The running totals `cum + g₁, cum + g₁ + g₂, …` of a list of gas
amounts — the specification of a running sum. -/
def runningFrom : Nat → List Nat → List Nat
  | _, [] => []
  | acc, g :: gs => (acc + g) :: runningFrom (acc + g) gs

/-! ### Claims C4, C5 -/

theorem getRpcTransaction_ok_fields (tx : Tx) (block : Option Block)
    (index : Option Nat) (o : RpcTransactionOutput)
    (h : getRpcTransaction tx block index = .ok o) :
    o.transactionIndex = index.map numberToRpcQuantity
    ∧ o.blockHash = block.map (fun b => bufferToRpcData b.hash none)
    ∧ o.blockNumber = block.map (fun b => numberToRpcQuantity b.header.number) := by
  unfold getRpcTransaction at h
  cases hv : tx.v with
  | none => rw [hv] at h; cases h
  | some v =>
    cases hr : tx.r with
    | none => rw [hv, hr] at h; cases h
    | some r =>
      cases hs : tx.s with
      | none => rw [hv, hr, hs] at h; cases h
      | some s =>
        rw [hv, hr, hs] at h
        injection h with h
        subst h
        exact ⟨rfl, rfl, rfl⟩

theorem buildFullTxs_spec (block : Block) :
    ∀ (l : List Tx) (i0 : Nat) (ts : List RpcTransactionOutput),
      buildFullTxs block l i0 = .ok ts →
      ts.map (fun t => t.transactionIndex) =
        (List.range' i0 l.length).map (fun i => some (numberToRpcQuantity i))
      ∧ ts.map (fun t => t.blockHash) =
        List.replicate l.length (some (bufferToRpcData block.hash none))
      ∧ ts.map (fun t => t.blockNumber) =
        List.replicate l.length (some (numberToRpcQuantity block.header.number)) := by
  intro l
  induction l with
  | nil =>
    intro i0 ts h
    injection h with h
    subst h
    simp
  | cons tx rest ih =>
    intro i0 ts h
    unfold buildFullTxs at h
    cases h1 : getRpcTransaction tx (some block) (some i0) with
    | error e => rw [h1] at h; cases h
    | ok o =>
      cases h2 : buildFullTxs block rest (i0 + 1) with
      | error e => rw [h1, h2] at h; cases h
      | ok os =>
        rw [h1, h2] at h
        injection h with h
        subst h
        obtain ⟨e1, e2, e3⟩ := ih (i0 + 1) os h2
        obtain ⟨f1, f2, f3⟩ := getRpcTransaction_ok_fields tx (some block) (some i0) o h1
        refine ⟨?_, ?_, ?_⟩ <;>
      simp [List.range', List.replicate_succ, e1, e2, e3, f1, f2, f3]

/-- C4 amended: building a block output with `isPending = true` nulls
`hash`, `nonce`, `mixHash`, `logsBloom` — and also `number` — while the
remaining header fields are populated from the block; the contained
transaction outputs, however, are built against the block itself with their
index, so their position fields (`transactionIndex`, `blockHash`,
`blockNumber`) are populated rather than null. -/
theorem c4_pending_block (block : Block) (totalDifficulty : Nat)
    (includeTransactions : Bool) (out : RpcBlockOutput)
    (hout : getRpcBlock block totalDifficulty includeTransactions true = .ok out) :
    out.number = none ∧ out.hash = none ∧ out.nonce = none ∧ out.mixHash = none
    ∧ out.logsBloom = none
    ∧ out.parentHash = bufferToRpcData block.header.parentHash none
    ∧ out.sha3Uncles = bufferToRpcData block.header.uncleHash none
    ∧ out.transactionsRoot = bufferToRpcData block.header.transactionsTrie none
    ∧ out.stateRoot = bufferToRpcData block.header.stateRoot none
    ∧ out.receiptsRoot = bufferToRpcData block.header.receiptTrie none
    ∧ out.miner = bufferToRpcData block.header.coinbase none
    ∧ out.difficulty = numberToRpcQuantity block.header.difficulty
    ∧ out.totalDifficulty = numberToRpcQuantity totalDifficulty
    ∧ out.extraData = bufferToRpcData block.header.extraData none
    ∧ out.size = numberToRpcQuantity block.serializedLength
    ∧ out.gasLimit = numberToRpcQuantity block.header.gasLimit
    ∧ out.gasUsed = numberToRpcQuantity block.header.gasUsed
    ∧ out.timestamp = numberToRpcQuantity block.header.timestamp
    ∧ out.uncles = block.uncleHashes.map (fun h => bufferToRpcData h none)
    ∧ (∀ txs, out.transactions = .full txs →
        txs.map (fun t => t.transactionIndex) =
          (List.range block.transactions.length).map
            (fun i => some (numberToRpcQuantity i))
        ∧ txs.map (fun t => t.blockHash) =
          List.replicate block.transactions.length
            (some (bufferToRpcData block.hash none))
        ∧ txs.map (fun t => t.blockNumber) =
          List.replicate block.transactions.length
            (some (numberToRpcQuantity block.header.number))) := by
  cases includeTransactions with
  | false =>
    unfold getRpcBlock at hout
    simp only [Bool.false_eq_true, if_false] at hout
    injection hout with hout
    subst hout
    refine ⟨rfl, rfl, rfl, rfl, rfl, rfl, rfl, rfl, rfl, rfl, rfl, rfl, rfl,
      rfl, rfl, rfl, rfl, rfl, rfl, ?_⟩
    intro txs htxs
    cases htxs
  | true =>
    unfold getRpcBlock at hout
    cases hb : buildFullTxs block block.transactions 0 with
    | error e => rw [if_pos rfl, hb] at hout; cases hout
    | ok ts =>
      rw [if_pos rfl, hb] at hout
      simp only [Except.map] at hout
      injection hout with hout
      subst hout
      refine ⟨rfl, rfl, rfl, rfl, rfl, rfl, rfl, rfl, rfl, rfl, rfl, rfl, rfl,
        rfl, rfl, rfl, rfl, rfl, rfl, ?_⟩
      intro txs htxs
      injection htxs with htxs
      subst htxs
      have h := buildFullTxs_spec block block.transactions 0 ts hb
      rwa [← List.range_eq_range'] at h

/-- A two-transaction block used as the concrete input of the C4 and C5
results: individual gas used `21000` and `30000`. -/
def txA : Tx :=
  { hash := [170], senderAddress := [1], gasLimit := 21000, gasPrice := 1,
    nonce := 0, value := 0, data := [], to_ := some [2], v := some 27,
    r := some 1, s := some 2 }

def txB : Tx :=
  { hash := [187], senderAddress := [1], gasLimit := 30000, gasPrice := 1,
    nonce := 1, value := 0, data := [], to_ := some [2], v := some 28,
    r := some 3, s := some 4 }

def headerW : BlockHeader :=
  { number := 5, parentHash := [0], nonce := [1], mixHash := [2],
    uncleHash := [3], bloom := [4], transactionsTrie := [5], stateRoot := [6],
    receiptTrie := [7], coinbase := [8], difficulty := 9, extraData := [10],
    gasLimit := 8000000, gasUsed := 51000, timestamp := 1600000000 }

def blockW : Block :=
  { header := headerW, transactions := [txA, txB], uncleHashes := [],
    hash := [255], serializedLength := 100 }

def runW : RunBlockResult :=
  { results := [⟨21000, none⟩, ⟨30000, none⟩]
    receipts := [⟨21000, [11], [], 1⟩, ⟨30000, [12], [], 1⟩] }

/-- C4 counterexample: building the output of a concrete pending block with
its transactions included yields `number = null` (the claim says every
header field other than hash/nonce/mixHash/logsBloom is populated) and
transaction outputs whose `transactionIndex` is `"0x0"`, `"0x1"` — populated,
not null as the claim requires. -/
theorem c4_counterexample :
    (getRpcBlock blockW 9 true true).map (fun o => o.number) = .ok none
    ∧ (getRpcBlock blockW 9 true true).map (fun o =>
        match o.transactions with
        | .full txs => txs.map (fun t => t.transactionIndex)
        | .hashes _ => []) = .ok [some "0x0", some "0x1"] := by
  constructor <;> rfl

/-- The computed output record for the C4 witness. -/
def outW : RpcBlockOutput :=
  ((getRpcBlock blockW 9 true true).toOption).getD default

/-- C4 amended witness: the concrete pending-block output has the five null
header fields and a populated parent hash. -/
theorem c4_pending_block_witness :
    outW.number = none ∧ outW.hash = none ∧ outW.nonce = none
    ∧ outW.mixHash = none ∧ outW.logsBloom = none
    ∧ outW.parentHash = bufferToRpcData blockW.header.parentHash none := by
  have h := c4_pending_block blockW 9 true outW (by rfl)
  exact ⟨h.1, h.2.1, h.2.2.1, h.2.2.2.1, h.2.2.2.2.1, h.2.2.2.2.2.1⟩

theorem getRpcReceiptsAux_spec (block : Block) :
    ∀ (txs : List Tx) (results : List TxRunResult) (receipts : List TxReceipt)
      (cum i0 : Nat),
      txs.length = results.length → receipts.length = results.length →
      ((getRpcReceiptsAux block cum i0 (txs.zip (results.zip receipts))).map
          (fun o => o.cumulativeGasUsed) =
        (runningFrom cum (receipts.map (fun rc => rc.gasUsed))).map
          numberToRpcQuantity)
      ∧ ((getRpcReceiptsAux block cum i0 (txs.zip (results.zip receipts))).map
          (fun o => o.status) =
        receipts.map (fun rc => numberToRpcQuantity rc.status))
      ∧ ((getRpcReceiptsAux block cum i0 (txs.zip (results.zip receipts))).map
          (fun o => o.gasUsed) =
        results.map (fun b => numberToRpcQuantity b.gasUsed))
      ∧ ((getRpcReceiptsAux block cum i0 (txs.zip (results.zip receipts))).map
          (fun o => o.logs) =
        (List.enumFrom i0 (txs.zip receipts)).map (fun p =>
          p.2.2.logs.enum.map (fun q =>
            getRpcLogOutput q.2 p.2.1 (some block) (some p.1) (some q.1)))) := by
  intro txs
  induction txs with
  | nil =>
    intro results receipts cum i0 h1 h2
    have : results = [] := by
      cases results with
      | nil => rfl
      | cons b bs => simp at h1
    subst this
    have : receipts = [] := by
      cases receipts with
      | nil => rfl
      | cons c cs => simp at h2
    subst this
    exact ⟨rfl, rfl, rfl, rfl⟩
  | cons tx rest ih =>
    intro results receipts cum i0 h1 h2
    cases results with
    | nil => simp at h1
    | cons result results' =>
      cases receipts with
      | nil => simp at h2
      | cons receipt receipts' =>
        have h1' : rest.length = results'.length := by simpa using h1
        have h2' : receipts'.length = results'.length := by simpa using h2
        obtain ⟨e1, e2, e3, e4⟩ :=
          ih results' receipts' (cum + receipt.gasUsed) (i0 + 1) h1' h2'
        simp only [List.zip] at e1 e2 e3 e4
        refine ⟨?_, ?_, ?_, ?_⟩
        · simp only [List.zip_cons_cons, getRpcReceiptsAux, List.map_cons,
            runningFrom]
          rw [e1]
          rfl
        · simp only [List.zip_cons_cons, getRpcReceiptsAux, List.map_cons]
          rw [e2]
          rfl
        · simp only [List.zip_cons_cons, getRpcReceiptsAux, List.map_cons]
          rw [e3]
          rfl
        · simp only [List.zip_cons_cons, getRpcReceiptsAux, List.map_cons,
            List.enumFrom]
          rw [e4]
          rfl

/-- C5: `getRpcReceipts` walks the execution results in transaction order —
emitting one receipt output per result, whose `gasUsed` comes from the
result — sets each output's `cumulativeGasUsed` to the running sum of the
receipts' gas used up to and including that transaction, reads `status`
directly from the receipt, and builds each receipt's `logs` through the log
builder with the parent transaction/block context (the block, the
transaction and its index) attached. -/
theorem c5_receipts (block : Block) (runBlockResult : RunBlockResult)
    (h1 : block.transactions.length = runBlockResult.results.length)
    (h2 : runBlockResult.receipts.length = runBlockResult.results.length) :
    ((getRpcReceipts block runBlockResult).map (fun o => o.cumulativeGasUsed) =
      (runningFrom 0 (runBlockResult.receipts.map (fun rc => rc.gasUsed))).map
        numberToRpcQuantity)
    ∧ ((getRpcReceipts block runBlockResult).map (fun o => o.status) =
      runBlockResult.receipts.map (fun rc => numberToRpcQuantity rc.status))
    ∧ ((getRpcReceipts block runBlockResult).map (fun o => o.gasUsed) =
      runBlockResult.results.map (fun b => numberToRpcQuantity b.gasUsed))
    ∧ ((getRpcReceipts block runBlockResult).map (fun o => o.logs) =
      (List.enumFrom 0 (block.transactions.zip runBlockResult.receipts)).map
        (fun p => p.2.2.logs.enum.map (fun q =>
          getRpcLogOutput q.2 p.2.1 (some block) (some p.1) (some q.1)))) :=
  getRpcReceiptsAux_spec block block.transactions runBlockResult.results
    runBlockResult.receipts 0 0 h1 h2

/-- C5 witness: for the concrete two-transaction block with gas used
`21000` then `30000`, the receipts carry `cumulativeGasUsed` `"0x5208"`
(21000) then `"0xc738"` (51000), and `status` `"0x1"` from the receipts. -/
theorem c5_receipts_witness :
    (getRpcReceipts blockW runW).map (fun o => o.cumulativeGasUsed) =
      ["0x5208", "0xc738"]
    ∧ (getRpcReceipts blockW runW).map (fun o => o.status) = ["0x1", "0x1"] := by
  have h := c5_receipts blockW runW rfl rfl
  exact ⟨h.1.trans (by rfl), h.2.1.trans (by rfl)⟩

/-! ## FakeSenderTransaction (FakeSenderTransaction.ts)

A JavaScript `TxData` object distinguishes three states per key: key absent,
key present with an `undefined` value, and key present with a value.  The
constructor's spread `{ v: 27, r: 1, s: 2, ...data }` keeps the placeholder
only when the key is *absent* from `data`; a present-but-undefined key
overrides the placeholder with `undefined`.  `KeyVal` captures the three
states. -/

inductive KeyVal (α : Type)
  | absent
  | undef
  | val (a : α)
deriving DecidableEq

/-- A `TxData` literal as passed to the `FakeSenderTransaction`
constructor. -/
structure FSTxData where
  nonce : KeyVal Nat := .absent
  gasPrice : KeyVal Nat := .absent
  gasLimit : KeyVal Nat := .absent
  to_ : KeyVal (List Nat) := .absent
  value : KeyVal Nat := .absent
  data : KeyVal (List Nat) := .absent
  v : KeyVal Nat := .absent
  r : KeyVal Nat := .absent
  s : KeyVal Nat := .absent
deriving DecidableEq

/-- The merged signature field after `{ v: dflt, ... , ...data }`: the
placeholder survives only an absent key, and the external `Transaction` base
constructor leaves an undefined signature field undefined. -/
def sigField (dflt : Nat) : KeyVal Nat → Option Nat
  | .absent => some dflt
  | .undef => none
  | .val n => some n

/-- A non-signature numeric field: the external base constructor defaults a
missing or undefined value to zero. -/
def numField : KeyVal Nat → Nat
  | .val n => n
  | _ => 0

/-- A byte-blob field, defaulting to the empty buffer. -/
def bytesField : KeyVal (List Nat) → List Nat
  | .val b => b
  | _ => []

/-- The optional `to` field. -/
def toField : KeyVal (List Nat) → Option (List Nat)
  | .val b => some b
  | _ => none

/-- The `FakeSenderTransaction` constructor:
`super({ v: 27, r: 1, s: 2, ...data }, { ...opts, freeze: false })` followed
by `this._sender = sender`.  `txHash` stands for the external keccak hash of
the serialized transaction (`hash()` of the base class). -/
def fakeSenderTransaction (sender : List Nat) (txHash : List Nat)
    (data : FSTxData) : Tx :=
  { hash := txHash
    senderAddress := sender
    gasLimit := numField data.gasLimit
    gasPrice := numField data.gasPrice
    nonce := numField data.nonce
    value := numField data.value
    data := bytesField data.data
    to_ := toField data.to_
    v := sigField 27 data.v
    r := sigField 1 data.r
    s := sigField 2 data.s }

/-- `FakeSenderTransaction.verifySignature` — returns `true` unconditionally,
never looking at the signature. -/
def FakeSenderTransaction.verifySignature (_tx : Tx) : Bool := true

/-- `FakeSenderTransaction.getSenderAddress` — returns the constructor-time
sender, never recovering it from the signature. -/
def FakeSenderTransaction.getSenderAddress (tx : Tx) : List Nat :=
  tx.senderAddress

def FakeSenderTransaction.sign (_tx : Tx) (_privateKey : List Nat) :
    Except String Tx :=
  .error "`sign` is not implemented in FakeSenderTransaction"

def FakeSenderTransaction.getSenderPublicKey (_tx : Tx) :
    Except String (List Nat) :=
  .error "`getSenderPublicKey` is not implemented in FakeSenderTransaction"

def FakeSenderTransaction.getMessageToVerifySignature (_tx : Tx) :
    Except String (List Nat) :=
  .error "`getMessageToVerifySignature` is not implemented in FakeSenderTransaction"

def FakeSenderTransaction.getMessageToSign (_tx : Tx) :
    Except String (List Nat) :=
  .error "`getMessageToSign` is not implemented in FakeSenderTransaction"

def FakeSenderTransaction.fromTxData (_data : FSTxData) : Except String Tx :=
  .error "`fromTxData` is not implemented in FakeSenderTransaction"

def FakeSenderTransaction.fromSerializedTx (_serialized : List Nat) :
    Except String Tx :=
  .error "`fromSerializedTx` is not implemented in FakeSenderTransaction"

def FakeSenderTransaction.fromRlpSerializedTx (_serialized : List Nat) :
    Except String Tx :=
  .error "`fromRlpSerializedTx` is not implemented in FakeSenderTransaction"

/-- Note: the source's `fromValuesArray` reuses the `fromRlpSerializedTx`
message verbatim. -/
def FakeSenderTransaction.fromValuesArray (_values : List (List Nat)) :
    Except String Tx :=
  .error "`fromRlpSerializedTx` is not implemented in FakeSenderTransaction"

/-- The prototype override `_validateTxV = function () {}` — a no-op. -/
def FakeSenderTransaction._validateTxV (_tx : Tx) : Unit := ()

def FakeSenderTransaction._signedTxImplementsEIP155 (_tx : Tx) :
    Except String Bool :=
  .error "`_signedTxImplementsEIP155` is not implemented in FakeSenderTransaction"

def FakeSenderTransaction._unsignedTxImplementsEIP155 (_tx : Tx) :
    Except String Bool :=
  .error "`_unsignedTxImplementsEIP155` is not implemented in FakeSenderTransaction"

def FakeSenderTransaction._getMessageToSign (_tx : Tx) :
    Except String (List Nat) :=
  .error "`_getMessageToSign` is not implemented in FakeSenderTransaction"

def FakeSenderTransaction._processSignature (_tx : Tx) (_v _r _s : Nat) :
    Except String Tx :=
  .error "`_processSignature` is not implemented in FakeSenderTransaction"

/-- Big-endian interpretation of a byte buffer (`new BN(buffer)`). -/
def bytesToNat (bytes : List Nat) : Nat :=
  bytes.foldl (fun acc b => acc * 256 + b % 256) 0

/-- `FakeSenderTransaction.fromSenderAndValuesArray`.  A 6- or 9-element
values array is destructured into
`[nonce, gasPrice, gasLimit, to, value, data, v, r, s]`; positions beyond
the array's length destructure to `undefined`, yet the `TxData` object
literal passed to the constructor carries *all nine keys* — so for a
6-element array `v`, `r`, `s` are present-but-undefined keys. -/
def FakeSenderTransaction.fromSenderAndValuesArray (sender : List Nat)
    (txHash : List Nat) (values : List (List Nat)) : Except String Tx :=
  if values.length ≠ 6 ∧ values.length ≠ 9 then
    .error "FakeSenderTransaction initialized with invalid values"
  else
    .ok (fakeSenderTransaction sender txHash
      { nonce :=
          match values[0]? with
          | some b => .val (bytesToNat b)
          | none => .undef
        gasPrice :=
          match values[1]? with
          | some b => .val (bytesToNat b)
          | none => .undef
        gasLimit :=
          match values[2]? with
          | some b => .val (bytesToNat b)
          | none => .undef
        to_ :=
          match values[3]? with
          | some b => if b.length > 0 then .val b else .undef
          | none => .undef
        value :=
          match values[4]? with
          | some b => .val (bytesToNat b)
          | none => .undef
        data :=
          match values[5]? with
          | some b => .val b
          | none => .undef
        v :=
          match values[6]? with
          | some b => .val (bytesToNat b)
          | none => .undef
        r :=
          match values[7]? with
          | some b => .val (bytesToNat b)
          | none => .undef
        s :=
          match values[8]? with
          | some b => .val (bytesToNat b)
          | none => .undef })

/-- `true` exactly on `.ok`. -/
def exceptIsOk {ε α : Type} : Except ε α → Bool
  | .ok _ => true
  | .error _ => false

/-! ### Claims C2, C10 -/

/-- C2 counterexample: the signature-validation operation `verifySignature`
does not fail loudly — it returns `true`, even for a fake-sender transaction
whose placeholder signature is meaningless.  (The claim requires every
signing, public-key-recovery *and signature-validation* operation to fail
with an error.) -/
theorem c2_counterexample :
    FakeSenderTransaction.verifySignature (fakeSenderTransaction [1] [2] {}) =
      true := rfl

/-- C2 amended: the signing operations (`sign`, `getMessageToSign`,
`_getMessageToSign`, `_processSignature`), the public-key-recovery operation
(`getSenderPublicKey`), `getMessageToVerifySignature`, the EIP-155 helpers
and every inherited construction entry point fail loudly with an internal
error, and none of them derives or validates anything; the
signature-validation surface, however, does not fail: `verifySignature`
returns `true` without validating and the `_validateTxV` override does
nothing. -/
theorem c2_fail_loudly :
    (∀ tx pk, FakeSenderTransaction.sign tx pk =
      .error "`sign` is not implemented in FakeSenderTransaction")
    ∧ (∀ tx, FakeSenderTransaction.getSenderPublicKey tx =
      .error "`getSenderPublicKey` is not implemented in FakeSenderTransaction")
    ∧ (∀ tx, FakeSenderTransaction.getMessageToVerifySignature tx =
      .error "`getMessageToVerifySignature` is not implemented in FakeSenderTransaction")
    ∧ (∀ tx, FakeSenderTransaction.getMessageToSign tx =
      .error "`getMessageToSign` is not implemented in FakeSenderTransaction")
    ∧ (∀ tx, FakeSenderTransaction._getMessageToSign tx =
      .error "`_getMessageToSign` is not implemented in FakeSenderTransaction")
    ∧ (∀ tx v r s, FakeSenderTransaction._processSignature tx v r s =
      .error "`_processSignature` is not implemented in FakeSenderTransaction")
    ∧ (∀ tx, FakeSenderTransaction._signedTxImplementsEIP155 tx =
      .error "`_signedTxImplementsEIP155` is not implemented in FakeSenderTransaction")
    ∧ (∀ tx, FakeSenderTransaction._unsignedTxImplementsEIP155 tx =
      .error "`_unsignedTxImplementsEIP155` is not implemented in FakeSenderTransaction")
    ∧ (∀ d, FakeSenderTransaction.fromTxData d =
      .error "`fromTxData` is not implemented in FakeSenderTransaction")
    ∧ (∀ b, FakeSenderTransaction.fromSerializedTx b =
      .error "`fromSerializedTx` is not implemented in FakeSenderTransaction")
    ∧ (∀ b, FakeSenderTransaction.fromRlpSerializedTx b =
      .error "`fromRlpSerializedTx` is not implemented in FakeSenderTransaction")
    ∧ (∀ vs, FakeSenderTransaction.fromValuesArray vs =
      .error "`fromRlpSerializedTx` is not implemented in FakeSenderTransaction")
    ∧ (∀ tx, FakeSenderTransaction.verifySignature tx = true)
    ∧ (∀ tx, FakeSenderTransaction._validateTxV tx = ())
    ∧ (∀ sender txHash d,
        FakeSenderTransaction.getSenderAddress
          (fakeSenderTransaction sender txHash d) = sender) :=
  ⟨fun _ _ => rfl, fun _ => rfl, fun _ => rfl, fun _ => rfl, fun _ => rfl,
    fun _ _ _ _ => rfl, fun _ => rfl, fun _ => rfl, fun _ => rfl, fun _ => rfl,
    fun _ => rfl, fun _ => rfl, fun _ => rfl, fun _ => rfl, fun _ _ _ => rfl⟩

/-- C10 counterexample: `fromSenderAndValuesArray` with a 6-element values
array constructs a transaction *without* any explicit `v`, `r`, `s` value,
yet the result does not carry the `27`/`1`/`2` placeholders — its `v`, `r`,
`s` are undefined — and building a wire-format transaction output from it
trips the signed-transaction assertion. -/
theorem c10_counterexample :
    (FakeSenderTransaction.fromSenderAndValuesArray [9] [7]
        [[], [], [], [], [], []]).map
      (fun tx => (tx.v, tx.r, tx.s, getRpcTransaction tx none none)) =
      .ok (none, none, none, .error "tx should be signed") := by rfl

/-- C10 amended: a `FakeSenderTransaction` constructed from a `TxData` whose
`v`, `r`, `s` keys are absent carries the placeholder signature
`v = 27, r = 1, s = 2`, its signature-verification reports `true`, and
building a wire-format transaction output from it never trips the
signed-transaction assertion; but `fromSenderAndValuesArray` with a
6-element values array passes `v`, `r`, `s` as present-but-undefined keys,
overriding the placeholders, so the resulting transaction has undefined
`v`, `r`, `s` and the wire-format builder does trip the assertion on it. -/
theorem c10_placeholder_signature (sender txHash : List Nat) (d : FSTxData)
    (hv : d.v = .absent) (hr : d.r = .absent) (hs : d.s = .absent) :
    (fakeSenderTransaction sender txHash d).v = some 27
    ∧ (fakeSenderTransaction sender txHash d).r = some 1
    ∧ (fakeSenderTransaction sender txHash d).s = some 2
    ∧ FakeSenderTransaction.verifySignature (fakeSenderTransaction sender txHash d) =
        true
    ∧ (∀ (block : Option Block) (index : Option Nat),
        exceptIsOk (getRpcTransaction (fakeSenderTransaction sender txHash d)
          block index) = true)
    ∧ (∀ (values : List (List Nat)) (tx : Tx), values.length = 6 →
        FakeSenderTransaction.fromSenderAndValuesArray sender txHash values =
          .ok tx →
        tx.v = none ∧ tx.r = none ∧ tx.s = none
          ∧ getRpcTransaction tx none none = .error "tx should be signed") := by
  refine ⟨?_, ?_, ?_, rfl, ?_, ?_⟩
  · simp [fakeSenderTransaction, hv, sigField]
  · simp [fakeSenderTransaction, hr, sigField]
  · simp [fakeSenderTransaction, hs, sigField]
  · intro block index
    simp [getRpcTransaction, fakeSenderTransaction, hv, hr, hs, sigField,
      exceptIsOk]
  · intro values tx hlen htx
    match values, hlen with
    | [b0, b1, b2, b3, b4, b5], _ =>
      unfold FakeSenderTransaction.fromSenderAndValuesArray at htx
      simp only [List.length_cons, List.length_nil] at htx
      rw [if_neg (by omega)] at htx
      injection htx with htx
      subst htx
      refine ⟨?_, ?_, ?_, ?_⟩ <;>
    simp [fakeSenderTransaction, sigField, getRpcTransaction]

/-- The transaction produced by the concrete 6-element
`fromSenderAndValuesArray` call of the C10 witness. -/
def fsTx6 : Tx :=
  (FakeSenderTransaction.fromSenderAndValuesArray [9] [7]
    [[], [], [], [], [], []]).toOption.getD (fakeSenderTransaction [9] [7] {})

/-- C10 amended witness: the placeholder signature and a passing build for a
concrete placeholder transaction, and undefined `v` with a tripped assertion
for a concrete 6-element values array. -/
theorem c10_placeholder_signature_witness :
    (fakeSenderTransaction [9] [7] {}).v = some 27
    ∧ exceptIsOk (getRpcTransaction (fakeSenderTransaction [9] [7] {})
        (some blockW) (some 0)) = true
    ∧ fsTx6.v = none
    ∧ getRpcTransaction fsTx6 none none = .error "tx should be signed" := by
  have h := c10_placeholder_signature [9] [7] {} rfl rfl rfl
  have h6 := h.2.2.2.2.2 [[], [], [], [], [], []] fsTx6 rfl (by rfl)
  exact ⟨h.1, h.2.2.2.2.1 (some blockW) (some 0), h6.1, h6.2.2.2⟩

/-- C2 amended witness: concrete failing calls of the signing and
public-key-recovery operations. -/
theorem c2_fail_loudly_witness :
    FakeSenderTransaction.sign (fakeSenderTransaction [1] [2] {}) [3] =
      .error "`sign` is not implemented in FakeSenderTransaction"
    ∧ FakeSenderTransaction.getSenderPublicKey (fakeSenderTransaction [1] [2] {}) =
      .error "`getSenderPublicKey` is not implemented in FakeSenderTransaction"
    ∧ FakeSenderTransaction.getMessageToVerifySignature
        (fakeSenderTransaction [1] [2] {}) =
      .error "`getMessageToVerifySignature` is not implemented in FakeSenderTransaction" :=
  ⟨c2_fail_loudly.1 _ _, c2_fail_loudly.2.1 _, c2_fail_loudly.2.2.1 _⟩

end Hardhat
